import Mathlib

/-!
Verification development for the OMERO utility script
`well_position_plate_generator.py` (dataset-to-plate conversion driven by
well positions parsed from image filenames).

The embedding below mirrors the Python source.  The remote OMERO service is
modelled by an explicit environment: datasets resolved by id, server-assigned
plate ids, a per-call success oracle for the well `saveObject` calls, and a
screen resolver abstracting the screen lookup/creation against the server.
Digits in the filename regex are modelled as ASCII digits.
-/

namespace OmeroWellPos

/-- The regex character class [A-Za-z] of the well-position pattern,
by code point: 65-90 is A-Z, 97-122 is a-z. -/
def isPyAlpha (c : Char) : Bool :=
  (65 ≤ c.toNat && c.toNat ≤ 90) || (97 ≤ c.toNat && c.toNat ≤ 122)

/-- The digit class of the well-position pattern (ASCII decimal digit,
code points 48-57). -/
def isPyDigit (c : Char) : Bool :=
  (48 ≤ c.toNat && c.toNat ≤ 57)

/-- Numeric value of a run of decimal digits, as Python int() of the matched
group; leading zeros contribute nothing. -/
def digitsVal (ds : List Char) : Nat :=
  ds.foldl (fun a c => 10 * a + (c.toNat - 48)) 0

/-- One attempt of the regex ([A-Za-z]+)(\x5Cd+) anchored at the start of cs:
greedy run of letters, then at least one digit right after it. -/
def matchAt (cs : List Char) : Option (List Char × List Char) :=
  let letters := cs.takeWhile isPyAlpha
  if letters.isEmpty then none
  else
    let digits := (cs.dropWhile isPyAlpha).takeWhile isPyDigit
    if digits.isEmpty then none else some (letters, digits)

/-- re.search of ([A-Za-z]+)(\x5Cd+): try every start position from the left,
return the first successful match. -/
def re_search : List Char → Option (List Char × List Char)
  | [] => none
  | c :: rest =>
    match matchAt (c :: rest) with
    | some r => some r
    | none => re_search rest

/-- parse_well_position_from_filename (source lines 22-31): first
letters-then-digits match, uppercased letters and int() of the digits;
the Python (None, None) result is modelled as none. -/
def parse_well_position_from_filename (filename : String) : Option (String × Nat) :=
  match re_search filename.data with
  | some (letters, digits) =>
      some (String.mk (letters.map Char.toUpper), digitsVal digits)
  | none => none

/-- An OMERO image as this script sees it: its id and its display name. -/
structure Image where
  id : Nat
  name : String
deriving DecidableEq

abbrev WellKey := String × Nat

/-- Appending an image under a key in an insertion-ordered association list,
as defaultdict(list) appending does: an existing key keeps its position and
gains the image at the end of its list, a new key goes to the end. -/
def insertGrouped (key : WellKey) (img : Image) :
    List (WellKey × List Image) → List (WellKey × List Image)
  | [] => [(key, [img])]
  | (k, v) :: rest =>
    if k = key then (k, v ++ [img]) :: rest
    else (k, v) :: insertGrouped key img rest

/-- Loop body of group_images_by_well_position: parse the image name and
append under the parsed key, or skip the image when parsing fails. -/
def groupStep (acc : List (WellKey × List Image)) (img : Image) :
    List (WellKey × List Image) :=
  match parse_well_position_from_filename img.name with
  | some key => insertGrouped key img acc
  | none => acc

/-- group_images_by_well_position (source lines 33-44): bucket the images by
parsed well position, skipping images whose name does not parse. -/
def group_images_by_well_position (images : List Image) :
    List (WellKey × List Image) :=
  images.foldl groupStep []

/-- Lookup in the grouped association list (empty list when the key is absent). -/
def lookupGroup (key : WellKey) : List (WellKey × List Image) → List Image
  | [] => []
  | (k, v) :: rest => if k = key then v else lookupGroup key rest

structure WellSample where
  imageId : Nat
deriving DecidableEq

/-- A well record as built by the loop: plate reference, 0-based row and
column (Int, since col - 1 may be negative), and its well samples. -/
structure Well where
  plateId : Nat
  row : Int
  col : Int
  samples : List WellSample
deriving DecidableEq

/-- Python ord on a string: defined only on strings of length exactly 1,
otherwise a TypeError is raised (modelled as none). -/
def pyOrd (s : String) : Option Nat :=
  match s.data with
  | [c] => some c.toNat
  | _ => none

/-- The well record the loop body builds for one group entry whose row string
is a single letter: row = ord(row_str) - ord A, col = parsed number - 1,
well samples from the first two images of the group. -/
def wellOfEntry (plate_id : Nat) (e : WellKey × List Image) : Well :=
  { plateId := plate_id
  , row := (e.1.1.data.headI.toNat : Int) - 65
  , col := (e.1.2 : Int) - 1
  , samples := (e.2.take 2).map (fun i => WellSample.mk i.id) }

/-- Outcome of the well loop of add_images_to_plate: a TypeError escaped
(raised), saveObject failed and False was returned (failed), or the loop
finished (done).  Each carries the wells persisted so far. -/
inductive LoopResult where
  | raised (saved : List Well)
  | failed (saved : List Well)
  | done (saved : List Well)
deriving DecidableEq

/-- The saved-well component of any loop outcome. -/
def LoopResult.savedWells : LoopResult → List Well
  | .raised s => s
  | .failed s => s
  | .done s => s

/-- Body of one loop iteration once ord succeeded with value o: the well at
row o - ord A and column col - 1, with the first two images as samples
(source lines 56-68). -/
def buildWell (plate_id : Nat) (o : Nat) (key : WellKey) (imgs : List Image) : Well :=
  { plateId := plate_id
  , row := (o : Int) - 65
  , col := (key.2 : Int) - 1
  , samples := (imgs.take 2).map (fun i => WellSample.mk i.id) }

/-- The per-group loop of add_images_to_plate (source lines 55-74).
saveOk idx tells whether the idx-th saveObject call of this invocation
succeeds.  ord on a multi-character row string raises before the try block,
so the exception escapes; a failing saveObject is caught and returns False. -/
def wellLoop (saveOk : Nat → Bool) (plate_id : Nat) :
    List (WellKey × List Image) → Nat → List Well → LoopResult
  | [], _, saved => .done saved
  | (key, imgs) :: rest, idx, saved =>
    match pyOrd key.1 with
    | none => .raised saved
    | some o =>
      if saveOk idx then
        wellLoop saveOk plate_id rest (idx + 1) (saved ++ [buildWell plate_id o key imgs])
      else .failed saved

/-- Observable outcome of add_images_to_plate: wells persisted, image ids
whose dataset links were deleted, and the returned value (some true / some
false), or none when the ord TypeError escaped. -/
structure AddOutcome where
  saved : List Well
  removed : List Nat
  result : Option Bool
deriving DecidableEq

/-- add_images_to_plate (source lines 46-82).  remove_from is the id of the
dataset to unlink from (None in the source is none here); the link removal
runs only after the whole loop succeeded, and then covers every image of the
input list. -/
def add_images_to_plate (saveOk : Nat → Bool) (images : List Image)
    (plate_id : Nat) (remove_from : Option Nat) : AddOutcome :=
  match wellLoop saveOk plate_id (group_images_by_well_position images) 0 [] with
  | .raised s => { saved := s, removed := [], result := none }
  | .failed s => { saved := s, removed := [], result := some false }
  | .done s =>
    match remove_from with
    | none => { saved := s, removed := [], result := some true }
    | some _ => { saved := s, removed := images.map (fun i => i.id), result := some true }

structure Dataset where
  name : String
  images : List Image
deriving DecidableEq

structure Screen where
  id : Nat
  canLink : Bool
deriving DecidableEq

structure Plate where
  id : Nat
  name : String
deriving DecidableEq

/-- The remote OMERO service as this script touches it: dataset resolution,
the id the server assigns to the plate created for a given dataset id, the
success oracle of the well saveObject calls (per dataset id and call index),
and the screen lookup/creation of lines 119-129 (external server state). -/
structure Env where
  datasets : Nat → Option Dataset
  plateIdOf : Nat → Nat
  saveOk : Nat → Nat → Bool
  resolveScreen : String → Option Screen

/-- The declared script inputs (run_script, lines 165-213).  screen = none
models an absent or empty Screen input. -/
structure ScriptParams where
  ids : List Nat
  filter_names : Option String
  first_axis : String
  first_axis_count : Nat
  images_per_well : Nat
  column_names : String
  row_names : String
  screen : Option String
  remove_from_dataset : Bool
deriving DecidableEq

/-- Observable outcome of dataset_to_plate: the returned plate and message
(meaningless when raised = true, since the exception propagates), whether a
screen link was saved, the wells persisted, the image ids unlinked, and the
value add_images_to_plate returned (none when it was never called). -/
structure DtpOutcome where
  plate : Option Plate
  message : String
  linkMade : Bool
  saved : List Well
  removed : List Nat
  addResult : Option (Option Bool)
  raised : Bool
deriving DecidableEq

/-- dataset_to_plate (source lines 84-108).  The plate is created and named
after the dataset before any well work; the return value of
add_images_to_plate is ignored and the fixed success message is returned
whenever the call itself does not raise. -/
def dataset_to_plate (env : Env) (p : ScriptParams) (dataset_id : Nat)
    (screen : Option Screen) : DtpOutcome :=
  match env.datasets dataset_id with
  | none =>
    { plate := none, message := "Dataset not found", linkMade := false
    , saved := [], removed := [], addResult := none, raised := false }
  | some ds =>
    let pid := env.plateIdOf dataset_id
    let linkMade :=
      match screen with
      | some s => s.canLink
      | none => false
    let out := add_images_to_plate (env.saveOk dataset_id) ds.images pid
      (if p.remove_from_dataset then some dataset_id else none)
    match out.result with
    | none =>
      { plate := none, message := "", linkMade := linkMade
      , saved := out.saved, removed := out.removed
      , addResult := some none, raised := true }
    | some b =>
      { plate := some { id := pid, name := ds.name }
      , message := "Images added to plate based on filename"
      , linkMade := linkMade
      , saved := out.saved, removed := out.removed
      , addResult := some (some b), raised := false }

/-- The per-dataset loop of datasets_to_plates (source lines 132-139):
collected plates, persisted wells, removed links, and whether an exception
escaped (which stops the loop). -/
def batchLoop (env : Env) (p : ScriptParams) (screen : Option Screen) :
    List Nat → List Plate × List Well × List Nat × Bool
  | [] => ([], [], [], false)
  | d :: rest =>
    let out := dataset_to_plate env p d screen
    if out.raised then ([], out.saved, out.removed, true)
    else
      let r := batchLoop env p screen rest
      ( (match out.plate with
         | some pl => pl :: r.1
         | none => r.1)
      , out.saved ++ r.2.1
      , out.removed ++ r.2.2.1
      , r.2.2.2)

/-- Observable outcome of datasets_to_plates: plates created, wells saved,
links removed, and the returned (object, message) pair; retval = none when
an exception escaped the batch. -/
structure BatchOutcome where
  plates : List Plate
  saved : List Well
  removed : List Nat
  retval : Option (Option Plate × String)
deriving DecidableEq

/-- datasets_to_plates (source lines 110-145). -/
def datasets_to_plates (env : Env) (p : ScriptParams) : BatchOutcome :=
  let screen :=
    match p.screen with
    | none => none
    | some s => env.resolveScreen s
  match batchLoop env p screen p.ids with
  | (plates, saved, removed, raised) =>
    if raised then
      { plates := plates, saved := saved, removed := removed, retval := none }
    else
      match plates with
      | [] =>
        { plates := [], saved := saved, removed := removed
        , retval := some (none, "No plates were created.") }
      | pl :: _ =>
        { plates := plates, saved := saved, removed := removed
        , retval := some (some pl,
            toString plates.length ++ " plates were created successfully.") }

/-- Whether cs contains a letter immediately followed by a digit; this is
exactly when the regex ([A-Za-z]+)(\x5Cd+) has a match in cs. -/
def hasAdjacentLetterDigit : List Char → Bool
  | [] => false
  | [_] => false
  | a :: b :: rest => (isPyAlpha a && isPyDigit b) || hasAdjacentLetterDigit (b :: rest)

/-- Declarative reading of "the first letters-then-digits substring of cs":
cs splits as pre ++ letters ++ digits ++ post where letters is a nonempty
letter run not extendable to the left, digits a nonempty digit run not
extendable to the right, and no match starts inside pre (pre holds no
letter-digit adjacency, and a trailing letter of pre is impossible). -/
def FirstLetterDigitMatch (cs letters digits : List Char) : Prop :=
  ∃ pre post,
    cs = pre ++ letters ++ digits ++ post ∧
    letters ≠ [] ∧ (∀ c ∈ letters, isPyAlpha c = true) ∧
    digits ≠ [] ∧ (∀ c ∈ digits, isPyDigit c = true) ∧
    (∀ c, pre.getLast? = some c → isPyAlpha c = false) ∧
    hasAdjacentLetterDigit pre = false ∧
    (∀ c, post.head? = some c → isPyDigit c = false)

/-- The 0-based row index the assignment pipeline computes for a filename
whose well position starts with the letter c: parse uppercases the letter,
the loop then takes ord(row) - ord A. -/
def rowIndexOfLetter (c : Char) : Option Int :=
  match parse_well_position_from_filename (String.mk [c, '1']) with
  | some (r, _) => (pyOrd r).map (fun o => (o : Int) - 65)
  | none => none

/-! ### Concrete environments and parameter records used in closed instances -/

def paramsNoRemove : ScriptParams :=
  { ids := [1], filter_names := none, first_axis := "column"
  , first_axis_count := 12, images_per_well := 1, column_names := "number"
  , row_names := "letter", screen := none, remove_from_dataset := false }

def envSimple : Env :=
  { datasets := fun _ => some ⟨"D", [⟨4, "A1_x.tif"⟩]⟩
  , plateIdOf := fun _ => 7
  , saveOk := fun _ _ => true
  , resolveScreen := fun _ => none }

def envFail : Env :=
  { datasets := fun i => if i = 1 then some ⟨"DS", [⟨10, "A1_x.tif"⟩]⟩ else none
  , plateIdOf := fun _ => 99
  , saveOk := fun _ _ => false
  , resolveScreen := fun _ => none }

def paramsRemove : ScriptParams :=
  { ids := [1], filter_names := none, first_axis := "column"
  , first_axis_count := 12, images_per_well := 1, column_names := "number"
  , row_names := "letter", screen := none, remove_from_dataset := true }

def envC7 : Env :=
  { datasets := fun i => if i = 1 then some ⟨"D1", [⟨4, "A1_x.tif"⟩]⟩ else none
  , plateIdOf := fun i => i + 100
  , saveOk := fun _ _ => true
  , resolveScreen := fun _ => none }

def paramsAlt : ScriptParams :=
  { ids := [1], filter_names := some "zzz", first_axis := "row"
  , first_axis_count := 8, images_per_well := 5, column_names := "letter"
  , row_names := "number", screen := none, remove_from_dataset := true }

/-! ### Lemmas on the grouping step -/

lemma lookupGroup_insertGrouped (key k : WellKey) (img : Image)
    (acc : List (WellKey × List Image)) :
    lookupGroup k (insertGrouped key img acc)
      = if k = key then lookupGroup k acc ++ [img] else lookupGroup k acc := by
  induction acc with
  | nil =>
    by_cases h : k = key
    · subst h; simp [insertGrouped, lookupGroup]
    · rw [if_neg h]
      simp only [insertGrouped, lookupGroup]
      rw [if_neg (fun h' => h h'.symm)]
  | cons e rest ih =>
    obtain ⟨k', v⟩ := e
    by_cases h1 : k' = key
    · subst h1
      by_cases h2 : k' = k
      · subst h2; simp [insertGrouped, lookupGroup]
      · have h2' : ¬ k = k' := fun h => h2 h.symm
        simp [insertGrouped, lookupGroup, h2, h2']
    · by_cases h2 : k' = k
      · subst h2
        have h1' : ¬ k' = key := h1
        simp [insertGrouped, lookupGroup, h1']
      · simp [insertGrouped, lookupGroup, h1, h2, ih]

lemma keys_insertGrouped (key : WellKey) (img : Image)
    (acc : List (WellKey × List Image)) :
    (insertGrouped key img acc).map Prod.fst
      = if key ∈ acc.map Prod.fst then acc.map Prod.fst
        else acc.map Prod.fst ++ [key] := by
  induction acc with
  | nil => simp [insertGrouped]
  | cons e rest ih =>
    obtain ⟨k', v⟩ := e
    by_cases h1 : k' = key
    · subst h1; simp [insertGrouped]
    · have h1' : ¬ key = k' := fun h => h1 h.symm
      by_cases h2 : key ∈ rest.map Prod.fst
      · simp [insertGrouped, h1, h1', ih, h2]
      · simp [insertGrouped, h1, h1', ih, h2]

lemma keys_nodup_insertGrouped (key : WellKey) (img : Image)
    (acc : List (WellKey × List Image))
    (h : (acc.map Prod.fst).Nodup) :
    ((insertGrouped key img acc).map Prod.fst).Nodup := by
  rw [keys_insertGrouped]
  by_cases hm : key ∈ acc.map Prod.fst
  · simpa [hm] using h
  · simp [hm, List.nodup_append, h]

lemma lookupGroup_foldl (imgs : List Image)
    (acc : List (WellKey × List Image)) (k : WellKey) :
    lookupGroup k (imgs.foldl groupStep acc)
      = lookupGroup k acc
          ++ imgs.filter
              (fun i => decide (parse_well_position_from_filename i.name = some k)) := by
  induction imgs generalizing acc with
  | nil => simp
  | cons i rest ih =>
    simp only [List.foldl_cons, List.filter_cons]
    cases hp : parse_well_position_from_filename i.name with
    | none =>
      rw [ih]
      simp [groupStep, hp]
    | some key =>
      rw [ih]
      simp only [groupStep, hp, lookupGroup_insertGrouped]
      by_cases hk : k = key
      · subst hk; simp [hp]
      · have hk' : ¬ key = k := fun h => hk h.symm
        simp [hk, hk', hp]

lemma keys_nodup_foldl (imgs : List Image)
    (acc : List (WellKey × List Image))
    (h : (acc.map Prod.fst).Nodup) :
    ((imgs.foldl groupStep acc).map Prod.fst).Nodup := by
  induction imgs generalizing acc with
  | nil => simpa using h
  | cons i rest ih =>
    simp only [List.foldl_cons]
    cases hp : parse_well_position_from_filename i.name with
    | none => exact ih _ (by simpa [groupStep, hp] using h)
    | some key =>
      exact ih _ (by
        simp only [groupStep, hp]
        exact keys_nodup_insertGrouped key i acc h)

lemma group_images_keys_nodup (images : List Image) :
    ((group_images_by_well_position images).map Prod.fst).Nodup :=
  keys_nodup_foldl images [] (by simp)

lemma lookupGroup_group_images (images : List Image) (k : WellKey) :
    lookupGroup k (group_images_by_well_position images)
      = images.filter
          (fun i => decide (parse_well_position_from_filename i.name = some k)) := by
  unfold group_images_by_well_position
  rw [lookupGroup_foldl]
  simp [lookupGroup]

/-- C4: the grouping step maps each well coordinate to exactly the images
whose names parse to that coordinate, in supply order; images whose names do
not parse land in no group, with no error; keys of the mapping appear at most
once; and the example ["B3_x.tif", "B03_y.tif", "C1_z.tif"] groups the first
two under ("B", 3) in supply order and the third alone under ("C", 1). -/
theorem C4_grouping (images : List Image) (k : WellKey) :
    lookupGroup k (group_images_by_well_position images)
      = images.filter
          (fun i => decide (parse_well_position_from_filename i.name = some k)) ∧
    ((group_images_by_well_position images).map Prod.fst).Nodup ∧
    group_images_by_well_position
        [⟨1, "B3_x.tif"⟩, ⟨2, "B03_y.tif"⟩, ⟨3, "C1_z.tif"⟩]
      = [(("B", 3), [⟨1, "B3_x.tif"⟩, ⟨2, "B03_y.tif"⟩]),
         (("C", 1), [⟨3, "C1_z.tif"⟩])] :=
  ⟨lookupGroup_group_images images k, group_images_keys_nodup images, by decide⟩

/-! ### Lemmas on the well-assignment loop -/

lemma pyOrd_spec {s : String} {o : Nat} (h : pyOrd s = some o) :
    s.data = [s.data.headI] ∧ o = s.data.headI.toNat := by
  unfold pyOrd at h
  cases hs : s.data with
  | nil => rw [hs] at h; exact absurd h (by simp)
  | cons c tl =>
    cases tl with
    | nil =>
      rw [hs] at h
      simp only [Option.some.injEq] at h
      simp [hs, ← h]
    | cons d tl' => rw [hs] at h; exact absurd h (by simp)

lemma pyOrd_isSome_of_length {s : String} (h : s.length = 1) :
    (pyOrd s).isSome := by
  unfold pyOrd
  have hl : s.data.length = 1 := h
  cases hs : s.data with
  | nil => rw [hs] at hl; simp at hl
  | cons c tl =>
    cases tl with
    | nil => simp
    | cons d tl' => rw [hs] at hl; simp at hl

lemma buildWell_eq_wellOfEntry {key : WellKey} {o : Nat} (h : pyOrd key.1 = some o)
    (pid : Nat) (imgs : List Image) :
    buildWell pid o key imgs = wellOfEntry pid (key, imgs) := by
  obtain ⟨_, ho⟩ := pyOrd_spec h
  simp [buildWell, wellOfEntry, ho]

lemma wellLoop_saved_characterization (saveOk : Nat → Bool) (pid : Nat) :
    ∀ (gs : List (WellKey × List Image)) (idx : Nat) (acc : List Well),
      ∃ k, k ≤ gs.length ∧
        (wellLoop saveOk pid gs idx acc).savedWells
          = acc ++ (gs.take k).map (wellOfEntry pid) ∧
        ∀ e ∈ gs.take k, (pyOrd e.1.1).isSome := by
  intro gs
  induction gs with
  | nil =>
    intro idx acc
    exact ⟨0, by simp, by simp [wellLoop, LoopResult.savedWells], by simp⟩
  | cons e rest ih =>
    intro idx acc
    obtain ⟨key, imgs⟩ := e
    cases ho : pyOrd key.1 with
    | none =>
      exact ⟨0, by simp, by simp [wellLoop, ho, LoopResult.savedWells], by simp⟩
    | some o =>
      by_cases hs : saveOk idx
      · obtain ⟨k, hk, hsaved, hall⟩ := ih (idx + 1) (acc ++ [buildWell pid o key imgs])
        refine ⟨k + 1, by simpa using hk, ?_, ?_⟩
        · simp only [wellLoop, ho, hs, if_true]
          rw [hsaved, buildWell_eq_wellOfEntry ho]
          simp [List.take_succ_cons]
        · intro f hf
          rw [List.take_succ_cons] at hf
          rcases List.mem_cons.mp hf with hf | hf
          · rw [hf]; simp [ho]
          · exact hall f hf
      · exact ⟨0, by simp, by simp [wellLoop, ho, hs, LoopResult.savedWells], by simp⟩

lemma wellLoop_done_inv (saveOk : Nat → Bool) (pid : Nat) :
    ∀ (gs : List (WellKey × List Image)) (idx : Nat) (acc s : List Well),
      wellLoop saveOk pid gs idx acc = .done s →
      s = acc ++ gs.map (wellOfEntry pid) := by
  intro gs
  induction gs with
  | nil => intro idx acc s h; simp [wellLoop] at h; simp [← h]
  | cons e rest ih =>
    intro idx acc s h
    obtain ⟨key, imgs⟩ := e
    cases ho : pyOrd key.1 with
    | none => simp only [wellLoop, ho] at h; exact absurd h (by simp)
    | some o =>
      simp only [wellLoop, ho] at h
      by_cases hs : saveOk idx
      · rw [if_pos hs] at h
        have := ih (idx + 1) (acc ++ [buildWell pid o key imgs]) s h
        rw [this, buildWell_eq_wellOfEntry ho]
        simp
      · rw [if_neg hs] at h; exact absurd h (by simp)

lemma wellLoop_all_ok (saveOk : Nat → Bool) (pid : Nat)
    (gs : List (WellKey × List Image))
    (hall : ∀ e ∈ gs, (pyOrd e.1.1).isSome)
    (hok : ∀ j, saveOk j = true) :
    ∀ (idx : Nat) (acc : List Well),
      wellLoop saveOk pid gs idx acc = .done (acc ++ gs.map (wellOfEntry pid)) := by
  induction gs with
  | nil => intro idx acc; simp [wellLoop]
  | cons e rest ih =>
    intro idx acc
    obtain ⟨key, imgs⟩ := e
    have ho : (pyOrd key.1).isSome := hall (key, imgs) (by simp)
    obtain ⟨o, ho'⟩ := Option.isSome_iff_exists.mp ho
    simp only [wellLoop, ho']
    rw [if_pos (hok idx)]
    have := ih (fun f hf => hall f (by simp [hf])) (idx + 1)
      (acc ++ [buildWell pid o key imgs])
    rw [this, buildWell_eq_wellOfEntry ho']
    simp

lemma wellLoop_first_fail (saveOk : Nat → Bool) (pid : Nat) :
    ∀ (gs : List (WellKey × List Image)) (k idx : Nat) (acc : List Well),
      k < gs.length →
      (∀ e ∈ gs.take (k + 1), (pyOrd e.1.1).isSome) →
      saveOk (idx + k) = false →
      (∀ j < k, saveOk (idx + j) = true) →
      wellLoop saveOk pid gs idx acc
        = .failed (acc ++ (gs.take k).map (wellOfEntry pid)) := by
  intro gs
  induction gs with
  | nil => intro k idx acc hk; simp at hk
  | cons e rest ih =>
    intro k idx acc hk hall hfail hbefore
    obtain ⟨key, imgs⟩ := e
    have ho : (pyOrd key.1).isSome := hall (key, imgs) (by simp [List.take_succ_cons])
    obtain ⟨o, ho'⟩ := Option.isSome_iff_exists.mp ho
    cases k with
    | zero =>
      simp only [wellLoop, ho']
      rw [if_neg (by simp_all)]
      simp
    | succ k' =>
      have hs : saveOk idx = true := by
        have := hbefore 0 (Nat.succ_pos k')
        simpa using this
      simp only [wellLoop, ho']
      rw [if_pos hs]
      have := ih k' (idx + 1) (acc ++ [buildWell pid o key imgs])
        (by simpa using Nat.lt_of_succ_lt_succ hk)
        (fun f hf => hall f (by simp [List.take_succ_cons, hf]))
        (by have : idx + 1 + k' = idx + (k' + 1) := by omega
            rw [this]; exact hfail)
        (fun j hj => by
          have : idx + 1 + j = idx + (j + 1) := by omega
          rw [this]; exact hbefore (j + 1) (Nat.succ_lt_succ hj))
      rw [this, buildWell_eq_wellOfEntry ho']
      simp [List.take_succ_cons]

lemma wellLoop_not_raised (saveOk : Nat → Bool) (pid : Nat) :
    ∀ (gs : List (WellKey × List Image)) (idx : Nat) (acc : List Well),
      (∀ e ∈ gs, (pyOrd e.1.1).isSome) →
      ∀ s, wellLoop saveOk pid gs idx acc ≠ .raised s := by
  intro gs
  induction gs with
  | nil => intro idx acc _ s h; simp [wellLoop] at h
  | cons e rest ih =>
    intro idx acc hall s h
    obtain ⟨key, imgs⟩ := e
    have ho : (pyOrd key.1).isSome := hall (key, imgs) (by simp)
    obtain ⟨o, ho'⟩ := Option.isSome_iff_exists.mp ho
    simp only [wellLoop, ho'] at h
    by_cases hs : saveOk idx
    · rw [if_pos hs] at h
      exact ih (idx + 1) _ (fun f hf => hall f (by simp [hf])) s h
    · rw [if_neg hs] at h
      exact absurd h (by simp)

/-! ### Lemmas on add_images_to_plate -/

lemma add_saved_eq_loop (saveOk : Nat → Bool) (images : List Image)
    (pid : Nat) (rm : Option Nat) :
    (add_images_to_plate saveOk images pid rm).saved
      = (wellLoop saveOk pid (group_images_by_well_position images) 0 []).savedWells := by
  unfold add_images_to_plate
  rcases wellLoop saveOk pid (group_images_by_well_position images) 0 [] with s | s | s
  · simp [LoopResult.savedWells]
  · simp [LoopResult.savedWells]
  · cases rm <;> simp [LoopResult.savedWells]

lemma add_first_fail (saveOk : Nat → Bool) (images : List Image)
    (pid : Nat) (rm : Option Nat) (k : Nat)
    (hk : k < (group_images_by_well_position images).length)
    (hall : ∀ e ∈ (group_images_by_well_position images).take (k + 1),
        (pyOrd e.1.1).isSome)
    (hfail : saveOk k = false)
    (hbefore : ∀ j < k, saveOk j = true) :
    add_images_to_plate saveOk images pid rm
      = { saved := ((group_images_by_well_position images).take k).map (wellOfEntry pid)
        , removed := []
        , result := some false } := by
  unfold add_images_to_plate
  rw [wellLoop_first_fail saveOk pid (group_images_by_well_position images) k 0 [] hk hall
    (by simpa using hfail) (fun j hj => by simpa using hbefore j hj)]
  simp

/-- C5: dataset-to-image link removal happens exactly when removal was
requested (remove_from is set) and the well loop completed without a
persistence failure, and then covers every image of the input list,
including images never placed in a well; on failure or exception nothing is
removed; at the orchestration level, remove_from_dataset = false means no
removal regardless of the outcome. -/
theorem C5_removal_conditioning (saveOk : Nat → Bool) (images : List Image)
    (pid : Nat) (rm : Option Nat) :
    ((add_images_to_plate saveOk images pid rm).removed
      = if (add_images_to_plate saveOk images pid rm).result = some true ∧ rm.isSome = true
        then images.map (fun i => i.id) else []) ∧
    (∀ (env : Env) (p : ScriptParams) (d : Nat) (scr : Option Screen),
      p.remove_from_dataset = false → (dataset_to_plate env p d scr).removed = []) := by
  constructor
  · unfold add_images_to_plate
    rcases wellLoop saveOk pid (group_images_by_well_position images) 0 [] with s | s | s
    · simp
    · simp
    · cases rm <;> simp
  · intro env p d scr hrm
    cases hd : env.datasets d with
    | none => simp [dataset_to_plate, hd]
    | some ds =>
      have hnone : (add_images_to_plate (env.saveOk d) ds.images
          (env.plateIdOf d) none).removed = [] := by
        unfold add_images_to_plate
        rcases wellLoop (env.saveOk d) (env.plateIdOf d)
          (group_images_by_well_position ds.images) 0 [] with s | s | s <;> simp
      rcases hres : (add_images_to_plate (env.saveOk d) ds.images
          (env.plateIdOf d) none).result with - | b
      · simp [dataset_to_plate, hd, hrm, hres, hnone]
      · simp [dataset_to_plate, hd, hrm, hres, hnone]

theorem C5_removal_conditioning_witness :
    paramsNoRemove.remove_from_dataset = false ∧
    (dataset_to_plate envSimple paramsNoRemove 1 none).removed = [] :=
  ⟨by decide,
   (C5_removal_conditioning (fun _ => true) [] 0 none).2
     envSimple paramsNoRemove 1 none (by decide)⟩

/-- C2: every persisted well carries at most 2 well-samples, namely exactly
the first min(2, length) images of its coordinate group in group order
(images beyond the 2nd silently excluded); and when the loop reports
success every coordinate group yields its well with those samples. -/
theorem C2_well_capacity (saveOk : Nat → Bool) (images : List Image)
    (pid : Nat) (rm : Option Nat) :
    (∀ w ∈ (add_images_to_plate saveOk images pid rm).saved,
      w.samples.length ≤ 2 ∧
      ∃ key imgs, (key, imgs) ∈ group_images_by_well_position images ∧
        w = wellOfEntry pid (key, imgs) ∧
        w.samples = (imgs.take 2).map (fun i => WellSample.mk i.id) ∧
        w.samples.length = min 2 imgs.length) ∧
    ((add_images_to_plate saveOk images pid rm).result = some true →
      (add_images_to_plate saveOk images pid rm).saved
        = (group_images_by_well_position images).map (wellOfEntry pid)) := by
  constructor
  · intro w hw
    rw [add_saved_eq_loop] at hw
    obtain ⟨k, hk, hsaved, hall⟩ :=
      wellLoop_saved_characterization saveOk pid (group_images_by_well_position images) 0 []
    rw [hsaved] at hw
    simp only [List.nil_append] at hw
    obtain ⟨e, he, hwe⟩ := List.mem_map.mp hw
    obtain ⟨key, imgs⟩ := e
    have hmem : (key, imgs) ∈ group_images_by_well_position images :=
      List.take_subset k _ he
    refine ⟨?_, key, imgs, hmem, hwe.symm, ?_, ?_⟩
    · rw [← hwe]
      simp only [wellOfEntry, List.length_map, List.length_take]
      exact min_le_left _ _
    · rw [← hwe]
      simp [wellOfEntry]
    · rw [← hwe]
      simp [wellOfEntry]
  · intro hres
    unfold add_images_to_plate at hres ⊢
    rcases hw : wellLoop saveOk pid (group_images_by_well_position images) 0 [] with s | s | s
    · rw [hw] at hres; simp at hres
    · rw [hw] at hres; simp at hres
    · have hdone := wellLoop_done_inv saveOk pid _ 0 [] s hw
      cases rm <;> simp [hdone]

theorem C2_well_capacity_witness :
    (add_images_to_plate (fun _ => true)
        [⟨1, "A1a.tif"⟩, ⟨2, "A1b.tif"⟩, ⟨3, "A1c.tif"⟩] 5 none).result = some true ∧
    (add_images_to_plate (fun _ => true)
        [⟨1, "A1a.tif"⟩, ⟨2, "A1b.tif"⟩, ⟨3, "A1c.tif"⟩] 5 none).saved
      = (group_images_by_well_position
          [⟨1, "A1a.tif"⟩, ⟨2, "A1b.tif"⟩, ⟨3, "A1c.tif"⟩]).map (wellOfEntry 5) :=
  ⟨by decide,
   (C2_well_capacity (fun _ => true)
     [⟨1, "A1a.tif"⟩, ⟨2, "A1b.tif"⟩, ⟨3, "A1c.tif"⟩] 5 none).2 (by decide)⟩

/-- C10: an image whose first letters-then-digits match has 2 or more
letters (e.g. "AB3_file.tif") makes the assignment raise at the ord row
conversion: nothing is persisted or removed and no Boolean is returned
(result = none models the escaping TypeError), for every save oracle; while
a grouping whose row strings are all single letters never reaches that
branch. -/
theorem C10_multi_letter_raises (saveOk : Nat → Bool) (pid : Nat) (rm : Option Nat)
    (images : List Image)
    (hall : ∀ e ∈ group_images_by_well_position images, e.1.1.length = 1) :
    (add_images_to_plate saveOk [⟨1, "AB3_file.tif"⟩] pid rm).result = none ∧
    (add_images_to_plate saveOk [⟨1, "AB3_file.tif"⟩] pid rm).saved = [] ∧
    (add_images_to_plate saveOk [⟨1, "AB3_file.tif"⟩] pid rm).removed = [] ∧
    (add_images_to_plate saveOk images pid rm).result ≠ none := by
  have hg : group_images_by_well_position [⟨1, "AB3_file.tif"⟩]
      = [(("AB", 3), [⟨1, "AB3_file.tif"⟩])] := by decide
  have hAB : pyOrd "AB" = none := by decide
  have hloop : wellLoop saveOk pid [(("AB", 3), [⟨1, "AB3_file.tif"⟩])] 0 []
      = .raised [] := by
    simp only [wellLoop]
    simp [hAB]
  refine ⟨?_, ?_, ?_, ?_⟩
  · unfold add_images_to_plate; rw [hg, hloop]
  · unfold add_images_to_plate; rw [hg, hloop]
  · unfold add_images_to_plate; rw [hg, hloop]
  · intro hcontra
    unfold add_images_to_plate at hcontra
    rcases hw : wellLoop saveOk pid (group_images_by_well_position images) 0 [] with s | s | s
    · exact wellLoop_not_raised saveOk pid _ 0 []
        (fun e he => pyOrd_isSome_of_length (hall e he)) s hw
    · rw [hw] at hcontra; simp at hcontra
    · rw [hw] at hcontra; cases rm <;> simp at hcontra

theorem C10_multi_letter_raises_witness :
    (∀ e ∈ group_images_by_well_position [⟨2, "C5_y.tif"⟩], e.1.1.length = 1) ∧
    (add_images_to_plate (fun _ => true) [⟨1, "AB3_file.tif"⟩] 9 none).result = none ∧
    (add_images_to_plate (fun _ => true) [⟨2, "C5_y.tif"⟩] 9 none).result ≠ none := by
  have h := C10_multi_letter_raises (fun _ => true) 9 none [⟨2, "C5_y.tif"⟩] (by decide)
  exact ⟨by decide, h.1, h.2.2.2⟩

/-! ### Row/column conversion (C6) -/

lemma char_toNat_inj {c c' : Char} (h : c.toNat = c'.toNat) : c = c' :=
  Char.eq_of_val_eq (UInt32.toNat.inj h)

lemma string_data_single {s : String} (h : s.length = 1) :
    s.data = [s.data.headI] := by
  have hl : s.data.length = 1 := h
  cases hs : s.data with
  | nil => rw [hs] at hl; simp at hl
  | cons c tl =>
    cases tl with
    | nil => simp
    | cons d tl' => rw [hs] at hl; simp at hl

lemma wellOfEntry_key_inj {pid : Nat} {e f : WellKey × List Image}
    (he : e.1.1.length = 1) (hf : f.1.1.length = 1)
    (hw : wellOfEntry pid e = wellOfEntry pid f) : e.1 = f.1 := by
  have hrow := congrArg Well.row hw
  have hcol := congrArg Well.col hw
  simp only [wellOfEntry] at hrow hcol
  have hchar : e.1.1.data.headI = f.1.1.data.headI := by
    refine char_toNat_inj ?_
    omega
  have hnum : e.1.2 = f.1.2 := by omega
  have hstr : e.1.1 = f.1.1 := by
    apply String.ext
    rw [string_data_single he, string_data_single hf, hchar]
  exact Prod.ext hstr hnum

lemma add_all_ok (saveOk : Nat → Bool) (images : List Image) (pid : Nat)
    (rm : Option Nat)
    (hall : ∀ e ∈ group_images_by_well_position images, (pyOrd e.1.1).isSome)
    (hok : ∀ j, saveOk j = true) :
    (add_images_to_plate saveOk images pid rm).saved
      = (group_images_by_well_position images).map (wellOfEntry pid) ∧
    (add_images_to_plate saveOk images pid rm).result = some true := by
  unfold add_images_to_plate
  rw [wellLoop_all_ok saveOk pid _ hall hok 0 []]
  cases rm <;> simp

lemma rowIndexOfLetter_alpha {c : Char} (h : isPyAlpha c = true) :
    rowIndexOfLetter c = some ((c.toUpper.toNat : Int) - 65) := by
  have t1 : List.takeWhile isPyAlpha [c, '1'] = [c] := by
    rw [List.takeWhile_cons_of_pos h, List.takeWhile_cons_of_neg (by decide)]
  have t2 : List.dropWhile isPyAlpha [c, '1'] = ['1'] := by
    rw [List.dropWhile_cons_of_pos h, List.dropWhile_cons_of_neg (by decide)]
  have t3 : List.takeWhile isPyDigit ['1'] = ['1'] := by decide
  have hm : matchAt [c, '1'] = some ([c], ['1']) := by
    unfold matchAt
    rw [t1, t2, t3]
    simp
  have hr : re_search [c, '1'] = some ([c], ['1']) := by
    unfold re_search
    rw [hm]
  unfold rowIndexOfLetter parse_well_position_from_filename
  rw [show (String.mk [c, '1']).data = [c, '1'] from rfl, hr]
  have hord : pyOrd (String.mk [c.toUpper]) = some c.toUpper.toNat := rfl
  simp only [List.map_cons, List.map_nil, hord, Option.map_some]
  rfl

/-- C6: under normal operation (all groups have single-letter rows, all
saves succeed), each coordinate group yields exactly one persisted well,
whose row index is ord(row letter) - ord A (0-based) and whose column index
is the parsed number minus 1; and the row index obtained from a filename
letter is case-insensitive, determined by the uppercased letter. -/
theorem C6_row_conversion (saveOk : Nat → Bool) (images : List Image)
    (pid : Nat) (rm : Option Nat) (key : WellKey) (imgs : List Image)
    (hmem : (key, imgs) ∈ group_images_by_well_position images)
    (hall : ∀ e ∈ group_images_by_well_position images, e.1.1.length = 1)
    (hok : ∀ j, saveOk j = true) :
    ((add_images_to_plate saveOk images pid rm).saved.count
        (wellOfEntry pid (key, imgs)) = 1) ∧
    (wellOfEntry pid (key, imgs)).row = (key.1.data.headI.toNat : Int) - 65 ∧
    (wellOfEntry pid (key, imgs)).col = (key.2 : Int) - 1 ∧
    (∀ c : Char, isPyAlpha c = true →
      rowIndexOfLetter c = some ((c.toUpper.toNat : Int) - 65)) := by
  have hsaved := (add_all_ok saveOk images pid rm
    (fun e he => pyOrd_isSome_of_length (hall e he)) hok).1
  have hkeys := group_images_keys_nodup images
  have hentries : (group_images_by_well_position images).Nodup :=
    List.Nodup.of_map Prod.fst hkeys
  have hmap : ((group_images_by_well_position images).map (wellOfEntry pid)).Nodup := by
    refine List.Nodup.map_on ?_ hentries
    intro x hx y hy hxy
    exact List.inj_on_of_nodup_map hkeys hx hy
      (wellOfEntry_key_inj (hall x hx) (hall y hy) hxy)
  refine ⟨?_, rfl, rfl, fun c hc => rowIndexOfLetter_alpha hc⟩
  rw [hsaved]
  exact List.count_eq_one_of_mem hmap
    (List.mem_map_of_mem (wellOfEntry pid) hmem)

theorem C6_row_conversion_witness :
    (("B", 3), [Image.mk 1 "b3_x.tif"]) ∈
        group_images_by_well_position [⟨1, "b3_x.tif"⟩] ∧
    (add_images_to_plate (fun _ => true) [⟨1, "b3_x.tif"⟩] 2 none).saved.count
        (wellOfEntry 2 (("B", 3), [⟨1, "b3_x.tif"⟩])) = 1 ∧
    (wellOfEntry 2 (("B", 3), [⟨1, "b3_x.tif"⟩])).row = 1 ∧
    (wellOfEntry 2 (("B", 3), [⟨1, "b3_x.tif"⟩])).col = 2 ∧
    rowIndexOfLetter 'A' = some 0 ∧ rowIndexOfLetter 'a' = some 0 ∧
    rowIndexOfLetter 'b' = some 1 := by
  have h := C6_row_conversion (fun _ => true) [⟨1, "b3_x.tif"⟩] 2 none ("B", 3)
    [⟨1, "b3_x.tif"⟩] (by decide) (by decide) (fun j => rfl)
  exact ⟨by decide, h.1, by decide, by decide, by decide, by decide, by decide⟩

/-! ### Persistence failure (C1) -/

/-- C1 (amended): when the k-th well save fails (all earlier ones having
succeeded), the loop stops there — earlier wells stay persisted, no later
well is persisted, no dataset link is removed — and add_images_to_plate
returns False; but dataset_to_plate ignores that value, so the conversion
still returns the created plate with the fixed success message. -/
theorem C1_persistence_failure (env : Env) (p : ScriptParams) (d : Nat)
    (ds : Dataset) (scr : Option Screen) (k : Nat)
    (hds : env.datasets d = some ds)
    (hall : ∀ e ∈ group_images_by_well_position ds.images, e.1.1.length = 1)
    (hk : k < (group_images_by_well_position ds.images).length)
    (hfail : env.saveOk d k = false)
    (hbefore : ∀ j < k, env.saveOk d j = true) :
    (dataset_to_plate env p d scr).saved
      = ((group_images_by_well_position ds.images).take k).map
          (wellOfEntry (env.plateIdOf d)) ∧
    (dataset_to_plate env p d scr).removed = [] ∧
    (dataset_to_plate env p d scr).addResult = some (some false) ∧
    (dataset_to_plate env p d scr).plate = some ⟨env.plateIdOf d, ds.name⟩ ∧
    (dataset_to_plate env p d scr).message
      = "Images added to plate based on filename" := by
  have hadd := add_first_fail (env.saveOk d) ds.images (env.plateIdOf d)
    (if p.remove_from_dataset then some d else none) k hk
    (fun e he => pyOrd_isSome_of_length (hall e (List.take_subset _ _ he)))
    hfail hbefore
  simp [dataset_to_plate, hds, hadd]

/-- C1 counterexample to the claim as stated: the only well save fails, so
the assignment returns False — yet the conversion of the group is NOT
reported as failed: dataset_to_plate returns the created plate with the
fixed success message, and the batch driver counts it as a created plate. -/
theorem C1_persistence_failure_counterexample :
    (dataset_to_plate envFail paramsRemove 1 none).addResult = some (some false) ∧
    (dataset_to_plate envFail paramsRemove 1 none).plate = some ⟨99, "DS"⟩ ∧
    (dataset_to_plate envFail paramsRemove 1 none).message
      = "Images added to plate based on filename" ∧
    (datasets_to_plates envFail paramsRemove).retval
      = some (some ⟨99, "DS"⟩, "1 plates were created successfully.") :=
  ⟨by decide, by decide, by decide, by decide⟩

theorem C1_persistence_failure_witness :
    envFail.datasets 1 = some ⟨"DS", [⟨10, "A1_x.tif"⟩]⟩ ∧
    (dataset_to_plate envFail paramsRemove 1 none).saved = [] ∧
    (dataset_to_plate envFail paramsRemove 1 none).removed = [] := by
  have h := C1_persistence_failure envFail paramsRemove 1
    ⟨"DS", [⟨10, "A1_x.tif"⟩]⟩ none 0 (by decide) (by decide) (by decide) rfl
    (fun j hj => absurd hj (Nat.not_lt_zero j))
  exact ⟨by decide, by simpa using h.1, h.2.1⟩

/-! ### Batch driver (C7, C8, C9) -/

lemma dataset_to_plate_params_congr (env : Env) (p1 p2 : ScriptParams)
    (d : Nat) (scr : Option Screen)
    (h : p1.remove_from_dataset = p2.remove_from_dataset) :
    dataset_to_plate env p1 d scr = dataset_to_plate env p2 d scr := by
  unfold dataset_to_plate
  rw [h]

lemma batchLoop_params_congr (env : Env) (p1 p2 : ScriptParams)
    (scr : Option Screen) (L : List Nat)
    (h : p1.remove_from_dataset = p2.remove_from_dataset) :
    batchLoop env p1 scr L = batchLoop env p2 scr L := by
  induction L with
  | nil => rfl
  | cons d rest ih =>
    simp only [batchLoop, dataset_to_plate_params_congr env p1 p2 d scr h, ih]

lemma batchLoop_skip_missing (env : Env) (p : ScriptParams) (scr : Option Screen)
    (bad : Nat) (hbad : env.datasets bad = none) :
    ∀ (pre post : List Nat),
      batchLoop env p scr (pre ++ bad :: post) = batchLoop env p scr (pre ++ post) := by
  intro pre
  induction pre with
  | nil =>
    intro post
    have hout : dataset_to_plate env p bad scr
        = { plate := none, message := "Dataset not found", linkMade := false
          , saved := [], removed := [], addResult := none, raised := false } := by
      unfold dataset_to_plate; rw [hbad]
    simp [batchLoop, hout]
  | cons a pre' ih =>
    intro post
    simp only [List.cons_append, batchLoop, List.append_eq, ih]

/-- C7: a dataset id that does not resolve yields the not-found message, no
plate, no persisted wells and no removals for that item, and the batch
behaves exactly as if the id were absent: the other ids are processed
normally. -/
theorem C7_dataset_not_found (env : Env) (p : ScriptParams) (scr : Option Screen)
    (bad : Nat) (pre post : List Nat)
    (hbad : env.datasets bad = none) :
    (dataset_to_plate env p bad scr).plate = none ∧
    (dataset_to_plate env p bad scr).message = "Dataset not found" ∧
    (dataset_to_plate env p bad scr).saved = [] ∧
    (dataset_to_plate env p bad scr).removed = [] ∧
    datasets_to_plates env { p with ids := pre ++ bad :: post }
      = datasets_to_plates env { p with ids := pre ++ post } := by
  have hout : dataset_to_plate env p bad scr
      = { plate := none, message := "Dataset not found", linkMade := false
        , saved := [], removed := [], addResult := none, raised := false } := by
    unfold dataset_to_plate; rw [hbad]
  refine ⟨by rw [hout], by rw [hout], by rw [hout], by rw [hout], ?_⟩
  have hbatch : batchLoop env { p with ids := pre ++ bad :: post }
      (match p.screen with
       | none => none
       | some s => env.resolveScreen s) (pre ++ bad :: post)
    = batchLoop env { p with ids := pre ++ post }
      (match p.screen with
       | none => none
       | some s => env.resolveScreen s) (pre ++ post) := by
    rw [batchLoop_params_congr env { p with ids := pre ++ bad :: post } p _ _ rfl,
        batchLoop_skip_missing env p _ bad hbad pre post,
        batchLoop_params_congr env p { p with ids := pre ++ post } _ _ rfl]
  simp only [datasets_to_plates]
  rw [hbatch]

theorem C7_dataset_not_found_witness :
    envC7.datasets 2 = none ∧
    (dataset_to_plate envC7 paramsRemove 2 none).plate = none ∧
    (dataset_to_plate envC7 paramsRemove 2 none).message = "Dataset not found" ∧
    datasets_to_plates envC7 { paramsRemove with ids := [1, 2] }
      = datasets_to_plates envC7 { paramsRemove with ids := [1] } := by
  have h := C7_dataset_not_found envC7 paramsRemove none 2 [1] [] (by decide)
  exact ⟨by decide, h.1, h.2.1, by simpa using h.2.2.2.2⟩

/-- C8: the declared inputs Filter_Names, First_Axis, First_Axis_Count,
Images_Per_Well, Column_Names and Row_Names are never read by the
conversion: two runs over the same environment agreeing on IDs, Screen and
Remove_From_Dataset produce identical outcomes — same plates, same wells
and well-samples, same removals, same output message. -/
theorem C8_unused_params (env : Env) (p1 p2 : ScriptParams)
    (hids : p1.ids = p2.ids) (hscr : p1.screen = p2.screen)
    (hrm : p1.remove_from_dataset = p2.remove_from_dataset) :
    datasets_to_plates env p1 = datasets_to_plates env p2 := by
  simp only [datasets_to_plates, hids, hscr]
  rw [batchLoop_params_congr env p1 p2 _ p2.ids hrm]

theorem C8_unused_params_witness :
    paramsRemove.ids = paramsAlt.ids ∧
    paramsRemove.screen = paramsAlt.screen ∧
    paramsRemove.remove_from_dataset = paramsAlt.remove_from_dataset ∧
    paramsRemove.filter_names ≠ paramsAlt.filter_names ∧
    datasets_to_plates envSimple paramsRemove = datasets_to_plates envSimple paramsAlt :=
  ⟨rfl, rfl, rfl, by decide,
   C8_unused_params envSimple paramsRemove paramsAlt rfl rfl rfl⟩

/-- C9: when the batch driver returns (no exception escaped), the returned
object is the first created plate (none when no plate was created) and the
message is the count-based summary, or the fixed no-plates message when the
plate list is empty. -/
theorem C9_batch_output (env : Env) (p : ScriptParams)
    (obj : Option Plate) (msg : String)
    (h : (datasets_to_plates env p).retval = some (obj, msg)) :
    obj = (datasets_to_plates env p).plates.head? ∧
    ((datasets_to_plates env p).plates = [] →
      obj = none ∧ msg = "No plates were created.") ∧
    ((datasets_to_plates env p).plates ≠ [] →
      msg = toString (datasets_to_plates env p).plates.length
          ++ " plates were created successfully.") := by
  simp only [datasets_to_plates] at h ⊢
  rcases hb : batchLoop env p
      (match p.screen with
       | none => none
       | some s => env.resolveScreen s) p.ids with ⟨plates, saved, removed, raised⟩
  rw [hb] at h
  cases raised with
  | true => simp at h
  | false =>
    cases plates with
    | nil =>
      simp at h
      obtain ⟨h1, h2⟩ := h
      subst h1
      subst h2
      simp
    | cons pl rest =>
      simp at h
      obtain ⟨h1, h2⟩ := h
      subst h1
      subst h2
      simp

theorem C9_batch_output_witness :
    (datasets_to_plates envSimple paramsNoRemove).retval
      = some (some ⟨7, "D"⟩, "1 plates were created successfully.") ∧
    some (⟨7, "D"⟩ : Plate)
      = (datasets_to_plates envSimple paramsNoRemove).plates.head? := by
  have h := C9_batch_output envSimple paramsNoRemove (some ⟨7, "D"⟩)
    "1 plates were created successfully." (by decide)
  exact ⟨by decide, h.1⟩

/-! ### Parser characterization (C3) -/

lemma not_alpha_of_digit {c : Char} (h : isPyDigit c = true) : isPyAlpha c = false := by
  simp only [isPyDigit, Bool.and_eq_true, decide_eq_true_eq] at h
  simp only [isPyAlpha]
  simp only [Bool.or_eq_false_iff, Bool.and_eq_false_iff, decide_eq_false_iff_not, not_le]
  omega

lemma head_dropWhile_false {p : Char → Bool} {l : List Char} {c : Char}
    (h : (l.dropWhile p).head? = some c) : p c = false := by
  have hw := List.head?_dropWhile_not p l
  rw [h] at hw
  exact hw

lemma takeWhile_append_of_all {p : Char → Bool} :
    ∀ {l r : List Char}, (∀ c ∈ l, p c = true) →
      (l ++ r).takeWhile p = l ++ r.takeWhile p := by
  intro l
  induction l with
  | nil => intro r _; simp
  | cons a l' ih =>
    intro r h
    have ha : p a = true := h a (by simp)
    simp only [List.cons_append, List.takeWhile_cons_of_pos ha]
    rw [ih (fun c hc => h c (by simp [hc]))]

lemma dropWhile_append_of_all {p : Char → Bool} :
    ∀ {l r : List Char}, (∀ c ∈ l, p c = true) →
      (l ++ r).dropWhile p = r.dropWhile p := by
  intro l
  induction l with
  | nil => intro r _; simp
  | cons a l' ih =>
    intro r h
    have ha : p a = true := h a (by simp)
    simp only [List.cons_append, List.dropWhile_cons_of_pos ha]
    exact ih (fun c hc => h c (by simp [hc]))

lemma matchAt_eq_some {cs letters digits : List Char}
    (h : matchAt cs = some (letters, digits)) :
    letters = cs.takeWhile isPyAlpha ∧
    digits = (cs.dropWhile isPyAlpha).takeWhile isPyDigit ∧
    letters ≠ [] ∧ digits ≠ [] := by
  simp only [matchAt] at h
  by_cases h1 : (cs.takeWhile isPyAlpha).isEmpty
  · rw [if_pos h1] at h; exact absurd h (by simp)
  · rw [if_neg h1] at h
    by_cases h2 : ((cs.dropWhile isPyAlpha).takeWhile isPyDigit).isEmpty
    · rw [if_pos h2] at h; exact absurd h (by simp)
    · rw [if_neg h2] at h
      simp only [Option.some.injEq, Prod.mk.injEq] at h
      obtain ⟨hl, hd⟩ := h
      subst hl
      subst hd
      exact ⟨rfl, rfl, by simpa using h1, by simpa using h2⟩

lemma matchAt_decomp {cs letters digits : List Char}
    (h : matchAt cs = some (letters, digits)) :
    cs = letters ++ digits ++ ((cs.dropWhile isPyAlpha).dropWhile isPyDigit) ∧
    letters ≠ [] ∧ (∀ c ∈ letters, isPyAlpha c = true) ∧
    digits ≠ [] ∧ (∀ c ∈ digits, isPyDigit c = true) ∧
    (∀ c, ((cs.dropWhile isPyAlpha).dropWhile isPyDigit).head? = some c →
      isPyDigit c = false) := by
  obtain ⟨hl, hd, hlne, hdne⟩ := matchAt_eq_some h
  subst hl
  subst hd
  refine ⟨?_, hlne, fun c hc => List.mem_takeWhile_imp hc, hdne,
    fun c hc => List.mem_takeWhile_imp hc, fun c hc => head_dropWhile_false hc⟩
  conv_lhs => rw [← List.takeWhile_append_dropWhile isPyAlpha cs,
    ← List.takeWhile_append_dropWhile isPyDigit (cs.dropWhile isPyAlpha)]
  rw [List.append_assoc]

lemma matchAt_build {c b : Char} {l r : List Char}
    (hc : isPyAlpha c = true) (hl : ∀ x ∈ l, isPyAlpha x = true)
    (hb : isPyDigit b = true) :
    matchAt (c :: (l ++ b :: r)) ≠ none := by
  have hba := not_alpha_of_digit hb
  have ht : (c :: (l ++ b :: r)).takeWhile isPyAlpha = c :: l := by
    rw [List.takeWhile_cons_of_pos hc, takeWhile_append_of_all hl,
      List.takeWhile_cons_of_neg (by simp [hba]), List.append_nil]
  have hdp : (c :: (l ++ b :: r)).dropWhile isPyAlpha = b :: r := by
    rw [List.dropWhile_cons_of_pos hc, dropWhile_append_of_all hl,
      List.dropWhile_cons_of_neg (by simp [hba])]
  simp only [matchAt, ht, hdp, List.takeWhile_cons_of_pos hb]
  simp

lemma hasAdjacent_of_parts :
    ∀ (l : List Char) (b : Char) (r : List Char),
      l ≠ [] → (∀ x ∈ l, isPyAlpha x = true) → isPyDigit b = true →
      hasAdjacentLetterDigit (l ++ b :: r) = true := by
  intro l
  induction l with
  | nil => intro b r h _ _; exact absurd rfl h
  | cons a l' ih =>
    intro b r _ hall hb
    have ha : isPyAlpha a = true := hall a (by simp)
    cases l' with
    | nil =>
      simp [hasAdjacentLetterDigit, ha, hb]
    | cons a' l'' =>
      have hrec : hasAdjacentLetterDigit ((a' :: l'') ++ b :: r) = true :=
        ih b r (by simp) (fun x hx => hall x (by simp [hx])) hb
      simp only [List.cons_append] at hrec ⊢
      simp [hasAdjacentLetterDigit, hrec]

lemma re_search_none_iff : ∀ (cs : List Char),
    re_search cs = none ↔ hasAdjacentLetterDigit cs = false := by
  intro cs
  induction cs with
  | nil => simp [re_search, hasAdjacentLetterDigit]
  | cons c rest ih =>
    cases hm : matchAt (c :: rest) with
    | some lp =>
      obtain ⟨letters, digits⟩ := lp
      obtain ⟨hdecomp, hlne, hlall, hdne, hdall, -⟩ := matchAt_decomp hm
      constructor
      · intro habs
        simp [re_search, hm] at habs
      · intro habs
        exfalso
        cases hdig : digits with
        | nil => exact hdne hdig
        | cons b d' =>
          have htrue : hasAdjacentLetterDigit (c :: rest) = true := by
            rw [hdecomp, hdig, List.append_assoc, List.cons_append]
            exact hasAdjacent_of_parts letters b _ hlne hlall
              (hdall b (by simp [hdig]))
          rw [htrue] at habs
          cases habs
    | none =>
      have hre : re_search (c :: rest) = re_search rest := by
        simp [re_search, hm]
      rw [hre, ih]
      cases rest with
      | nil => simp [hasAdjacentLetterDigit]
      | cons b rest' =>
        have hpair : (isPyAlpha c && isPyDigit b) = false := by
          by_contra hcc
          rw [Bool.not_eq_false, Bool.and_eq_true] at hcc
          exact @matchAt_build _ _ [] _ hcc.1 (by simp) hcc.2 hm
        constructor
        · intro hrest
          show hasAdjacentLetterDigit (c :: b :: rest') = false
          simp only [hasAdjacentLetterDigit, hpair, Bool.false_or]
          exact hrest
        · intro hall
          have : hasAdjacentLetterDigit (c :: b :: rest')
              = ((isPyAlpha c && isPyDigit b) || hasAdjacentLetterDigit (b :: rest')) := rfl
          rw [this, Bool.or_eq_false_iff] at hall
          exact hall.2

lemma re_search_some_first : ∀ (cs letters digits : List Char),
    re_search cs = some (letters, digits) →
    FirstLetterDigitMatch cs letters digits := by
  intro cs
  induction cs with
  | nil => intro letters digits h; simp [re_search] at h
  | cons c rest ih =>
    intro letters digits h
    cases hm : matchAt (c :: rest) with
    | some lp =>
      have heq : some lp = some (letters, digits) := by
        rw [← h]; simp [re_search, hm]
      obtain rfl : lp = (letters, digits) := by injection heq
      obtain ⟨hdecomp, hlne, hlall, hdne, hdall, hpost⟩ := matchAt_decomp hm
      exact ⟨[], ((c :: rest).dropWhile isPyAlpha).dropWhile isPyDigit,
        by simpa using hdecomp, hlne, hlall, hdne, hdall, by simp, rfl, hpost⟩
    | none =>
      have h' : re_search rest = some (letters, digits) := by
        rw [← h]; simp [re_search, hm]
      obtain ⟨pre, post, hdecomp, hlne, hlall, hdne, hdall, hlast, hadj, hpost⟩ :=
        ih letters digits h'
      refine ⟨c :: pre, post, by simp [hdecomp], hlne, hlall, hdne, hdall, ?_, ?_, hpost⟩
      · intro x hx
        cases pre with
        | nil =>
          simp at hx
          subst hx
          by_contra hcc
          rw [Bool.not_eq_false] at hcc
          cases hdig : digits with
          | nil => exact hdne hdig
          | cons b d' =>
            have hrest : rest = letters ++ b :: (d' ++ post) := by
              rw [hdecomp, hdig]; simp
            rw [hrest] at hm
            exact matchAt_build hcc hlall (hdall b (by simp [hdig])) hm
        | cons p0 pre' =>
          rw [List.getLast?_cons_cons] at hx
          exact hlast x hx
      · cases pre with
        | nil => rfl
        | cons p0 pre' =>
          have hhead : (isPyAlpha c && isPyDigit p0) = false := by
            by_contra hcc
            rw [Bool.not_eq_false, Bool.and_eq_true] at hcc
            have hrest : rest = p0 :: (pre' ++ letters ++ digits ++ post) := by
              rw [hdecomp]; simp
            rw [hrest] at hm
            exact @matchAt_build _ _ [] _ hcc.1 (by simp) hcc.2 hm
          show hasAdjacentLetterDigit (c :: p0 :: pre') = false
          simp only [hasAdjacentLetterDigit, hhead, Bool.false_or]
          exact hadj

lemma parse_none_iff (s : String) :
    parse_well_position_from_filename s = none
      ↔ hasAdjacentLetterDigit s.data = false := by
  unfold parse_well_position_from_filename
  cases hr : re_search s.data with
  | none => simp [(re_search_none_iff s.data).mp hr]
  | some lp =>
    obtain ⟨a, b⟩ := lp
    have htrue : hasAdjacentLetterDigit s.data = true := by
      by_contra hcc
      rw [Bool.not_eq_true] at hcc
      rw [(re_search_none_iff s.data).mpr hcc] at hr
      cases hr
    simp [htrue]

/-- C3: the parser returns a not-found signal exactly when the filename has
no letter immediately followed by a digit; when it returns a value, that
value is the uppercased letter run of the first letters-then-digits
substring paired with the numeric value of its digit run, so leading zeros
are normalized: "A2_file.tiff" and "A02_file.tiff" both yield ("A", 2). -/
theorem C3_parse_spec (s : String) :
    (parse_well_position_from_filename s = none
      ↔ hasAdjacentLetterDigit s.data = false) ∧
    (∀ r n, parse_well_position_from_filename s = some (r, n) →
      ∃ letters digits, FirstLetterDigitMatch s.data letters digits ∧
        r = String.mk (letters.map Char.toUpper) ∧ n = digitsVal digits) ∧
    parse_well_position_from_filename "A2_file.tiff" = some ("A", 2) ∧
    parse_well_position_from_filename "A02_file.tiff" = some ("A", 2) := by
  refine ⟨parse_none_iff s, ?_, by decide, by decide⟩
  intro r n hparse
  unfold parse_well_position_from_filename at hparse
  cases hr : re_search s.data with
  | none => rw [hr] at hparse; cases hparse
  | some lp =>
    obtain ⟨letters, digits⟩ := lp
    rw [hr] at hparse
    simp only [Option.some.injEq, Prod.mk.injEq] at hparse
    exact ⟨letters, digits, re_search_some_first s.data letters digits hr,
      hparse.1.symm, hparse.2.symm⟩

theorem C3_parse_spec_witness :
    parse_well_position_from_filename "A2_file.tiff" = some ("A", 2) ∧
    parse_well_position_from_filename "file.tif" = none ∧
    (∃ letters digits,
      FirstLetterDigitMatch ("A02_file.tiff" : String).data letters digits ∧
      "A" = String.mk (letters.map Char.toUpper) ∧ 2 = digitsVal digits) :=
  ⟨by decide, by decide,
   (C3_parse_spec "A02_file.tiff").2.1 "A" 2 (by decide)⟩

end OmeroWellPos
